import Mathlib

/-!
Shallow embedding of the Solana whale-tracker source (parser/classifier,
notification filters, position store queries, and the per-wallet polling
walk) together with theorems settling the frozen claims about it.

Numeric fields are modelled as exact rationals (the persistent store's
columns are NUMERIC); JavaScript's division-by-zero behaviour, which one
claim is about, is modelled explicitly by the `JsVal` type.
-/

namespace WhaleTracker

/-- Constants from src/config/constants.ts. -/
def WRAPPED_SOL : String := "So11111111111111111111111111111111111111112"

def USDC_MINT : String := "EPjFWdd5AufqSSqeM2qN1xzybapC8G4wEGGkZwyTDt1v"

def USDT_MINT : String := "Es9vMFrzaCERmJfrF4H2FYD4KCoNkY11McCe8BenwNYB"

/-- Placeholder SOL price used by calculateUSDValue in src/services/parser.ts. -/
def estimatedSolPrice : ℚ := 100

/-- Result of a JavaScript arithmetic operation: a finite number or one of
the IEEE sentinels produced by division by zero. -/
inductive JsVal where
  | finite (q : ℚ)
  | posInf
  | negInf
  | nan
deriving DecidableEq, Repr

/-- JavaScript division, exact on finite operands, with the zero-divisor
sentinels: a / 0 is Infinity, -Infinity or NaN according to the sign of a. -/
def jsDiv (a b : ℚ) : JsVal :=
  if b = 0 then
    if 0 < a then JsVal.posInf
    else if a < 0 then JsVal.negInf
    else JsVal.nan
  else JsVal.finite (a / b)

/-- Token transfer entry of a Helius transaction (src/types/index.ts).
Accounts are optional, mirroring the optional-chaining accesses in the
parser. -/
structure HeliusTokenTransfer where
  fromUserAccount : Option String
  toUserAccount : Option String
  mint : String
  tokenAmount : ℚ
deriving DecidableEq, Repr

/-- Native (lamport) transfer entry of a Helius transaction. -/
structure HeliusNativeTransfer where
  fromUserAccount : Option String
  toUserAccount : Option String
  amount : ℚ
deriving DecidableEq, Repr

/-- The fields of a Helius transaction that the pipeline reads
(src/types/index.ts); transactionError models the truthiness test
`if (tx.transactionError)`. -/
structure HeliusTransaction where
  type : String
  signature : String
  timestamp : ℤ
  tokenTransfers : List HeliusTokenTransfer
  nativeTransfers : List HeliusNativeTransfer
  transactionError : Bool
deriving DecidableEq, Repr

/-- Output of the classifier (src/types/index.ts); its type field is the
string tag 'buy' or 'sell'. priceUsd is a JsVal because the source divides
by the transfer amount without a zero guard. -/
structure ParsedTokenTransfer where
  type : String
  tokenMint : String
  tokenSymbol : String
  tokenName : String
  amount : ℚ
  priceUsd : JsVal
  valueUsd : ℚ
  signature : String
  timestamp : ℤ
deriving DecidableEq, Repr

/-- Case-insensitive equality of strings, as character-wise lowercase
comparison. -/
def lowerEq (a b : String) : Bool :=
  a.data.map Char.toLower == b.data.map Char.toLower

/-- Case-insensitive account comparison used throughout the parser,
mirroring the optional-chained lowercase comparison
`transfer.xUserAccount?.toLowerCase() === walletAddress.toLowerCase()`
(an absent account never matches). -/
def matchesWallet (account : Option String) (walletAddress : String) : Bool :=
  match account with
  | some a => lowerEq a walletAddress
  | none => false

/-- The transfer-selection loop of parseSwapTransaction (lines 31-48 of
src/services/parser.ts): skip wrapped-SOL entries, classify on the first
transfer whose toUserAccount (buy) or fromUserAccount (sell) is the
wallet. Returns the isBuy flag with the matched transfer. -/
def findTokenTransfer (walletAddress : String) :
    List HeliusTokenTransfer → Option (Bool × HeliusTokenTransfer)
  | [] => none
  | transfer :: rest =>
    if transfer.mint == WRAPPED_SOL then
      findTokenTransfer walletAddress rest
    else if matchesWallet transfer.toUserAccount walletAddress then
      some (true, transfer)
    else if matchesWallet transfer.fromUserAccount walletAddress then
      some (false, transfer)
    else
      findTokenTransfer walletAddress rest

/-- First loop of calculateUSDValue: a USDC/USDT transfer sent by the
wallet (buy) or received by it (sell) yields its amount directly. -/
def findStablecoinValue (walletAddress : String) (isBuy : Bool) :
    List HeliusTokenTransfer → Option ℚ
  | [] => none
  | transfer :: rest =>
    if (transfer.mint == USDC_MINT || transfer.mint == USDT_MINT)
        && (if isBuy then matchesWallet transfer.fromUserAccount walletAddress
            else matchesWallet transfer.toUserAccount walletAddress) then
      some transfer.tokenAmount
    else
      findStablecoinValue walletAddress isBuy rest

/-- Second loop of calculateUSDValue: any wrapped-SOL transfer, regardless
of direction, valued at the placeholder SOL price. -/
def findWrappedSolValue : List HeliusTokenTransfer → Option ℚ
  | [] => none
  | transfer :: rest =>
    if transfer.mint == WRAPPED_SOL then
      some (transfer.tokenAmount * estimatedSolPrice)
    else
      findWrappedSolValue rest

/-- Third loop of calculateUSDValue: a native lamport transfer in the
direction matching the wallet's role, converted to SOL and valued at the
placeholder price. -/
def findNativeSolValue (walletAddress : String) (isBuy : Bool) :
    List HeliusNativeTransfer → Option ℚ
  | [] => none
  | transfer :: rest =>
    if isBuy && matchesWallet transfer.fromUserAccount walletAddress then
      some (transfer.amount / 1000000000 * estimatedSolPrice)
    else if !isBuy && matchesWallet transfer.toUserAccount walletAddress then
      some (transfer.amount / 1000000000 * estimatedSolPrice)
    else
      findNativeSolValue walletAddress isBuy rest

/-- calculateUSDValue (lines 90-136 of src/services/parser.ts): stablecoin
amount first, then wrapped-SOL estimate, then native-transfer estimate,
else 0. -/
def calculateUSDValue (tokenTransfers : List HeliusTokenTransfer)
    (nativeTransfers : List HeliusNativeTransfer)
    (walletAddress : String) (isBuy : Bool) : ℚ :=
  match findStablecoinValue walletAddress isBuy tokenTransfers with
  | some v => v
  | none =>
    match findWrappedSolValue tokenTransfers with
    | some v => v
    | none =>
      match findNativeSolValue walletAddress isBuy nativeTransfers with
      | some v => v
      | none => 0

/-- parseSwapTransaction (src/services/parser.ts). The memoized
getTokenCreationTime lookup is abstracted as a pure oracle from mint to an
optional creation timestamp; MAX_TOKEN_AGE_MINUTES is the configured
maximum token age. The age filter is guarded by the JavaScript truthiness
test `if (tokenCreationTime)`, which is false both for a null lookup and
for a creation time of 0, so both skip the filter (fail-open). The
token-age minutes use floor division as
`Math.floor((tx.timestamp - creationTime) / 60)` does. -/
def parseSwapTransaction (MAX_TOKEN_AGE_MINUTES : ℤ)
    (getTokenCreationTime : String → Option ℤ)
    (tx : HeliusTransaction) (walletAddress : String) :
    Option ParsedTokenTransfer :=
  if tx.type != "SWAP" then none
  else if tx.transactionError then none
  else
    match findTokenTransfer walletAddress tx.tokenTransfers with
    | none => none
    | some (isBuy, tokenTransfer) =>
      let usdValue :=
        calculateUSDValue tx.tokenTransfers tx.nativeTransfers walletAddress isBuy
      let price := jsDiv usdValue tokenTransfer.tokenAmount
      let parsed : ParsedTokenTransfer :=
        { type := if isBuy then "buy" else "sell"
          tokenMint := tokenTransfer.mint
          tokenSymbol := tokenTransfer.mint
          tokenName := tokenTransfer.mint
          amount := tokenTransfer.tokenAmount
          priceUsd := price
          valueUsd := usdValue
          signature := tx.signature
          timestamp := tx.timestamp }
      if isBuy then
        match getTokenCreationTime tokenTransfer.mint with
        | some creationTime =>
          if creationTime ≠ 0 then
            let tokenAgeMinutes := Int.fdiv (tx.timestamp - creationTime) 60
            if tokenAgeMinutes > MAX_TOKEN_AGE_MINUTES then none
            else some parsed
          else some parsed
        | none => some parsed
      else some parsed

/-- shouldNotifyBuy (src/utils/filters.ts), parameterized by the
configured MIN_BUY_VALUE_USD threshold (default 1000). -/
def shouldNotifyBuy (MIN_BUY_VALUE_USD : ℚ) (transactionValueUsd : ℚ) : Bool :=
  decide (MIN_BUY_VALUE_USD ≤ transactionValueUsd)

/-- shouldNotifySell (src/utils/filters.ts): always true. -/
def shouldNotifySell : Bool :=
  true

/-- Row of the positions table (src/database/schema.sql and the Position
interface of src/types/index.ts). Timestamps are kept in epoch
milliseconds, as the TIMESTAMPTZ values written via
`new Date(seconds * 1000).toISOString()` and read back via `getTime()`. -/
structure Position where
  id : Nat
  wallet_address : String
  token_mint : String
  token_symbol : String
  token_name : String
  buy_signature : String
  buy_timestamp : ℤ
  buy_price_usd : ℚ
  buy_amount : ℚ
  buy_value_usd : ℚ
  sell_signature : Option String
  sell_timestamp : Option ℤ
  sell_price_usd : Option ℚ
  sell_amount : Option ℚ
  sell_value_usd : Option ℚ
  hold_duration_seconds : Option ℤ
  profit_loss_usd : Option ℚ
  profit_loss_percent : Option ℚ
  is_open : Bool
deriving DecidableEq, Repr

/-- Row of the processed_signatures table; its signature column is the
primary key. -/
structure ProcessedSignature where
  signature : String
  wallet_address : String
deriving DecidableEq, Repr

/-- The persistent store: the two tables of src/database/schema.sql, plus
the id sequence for position rows. -/
structure Database where
  positions : List Position
  processed_signatures : List ProcessedSignature
  nextId : Nat
deriving DecidableEq, Repr

def emptyDatabase : Database :=
  { positions := [], processed_signatures := [], nextId := 0 }

/-- Error surfaced by the store on a unique-constraint conflict, which the
query functions of src/database/queries.ts rethrow. -/
inductive DbError where
  | uniqueViolation
deriving DecidableEq, Repr

/-- Argument record of recordBuyTransaction (src/types/index.ts). -/
structure BuyTransactionData where
  walletAddress : String
  tokenMint : String
  tokenSymbol : String
  tokenName : String
  signature : String
  timestamp : ℤ
  priceUsd : ℚ
  amount : ℚ
  valueUsd : ℚ
deriving DecidableEq, Repr

/-- Argument record of recordSellTransaction (src/types/index.ts). -/
structure SellTransactionData where
  walletAddress : String
  tokenMint : String
  signature : String
  timestamp : ℤ
  priceUsd : ℚ
  amount : ℚ
  valueUsd : ℚ
deriving DecidableEq, Repr

/-- isSignatureProcessed (src/database/queries.ts): membership lookup in
the processed_signatures table. -/
def isSignatureProcessed (db : Database) (signature : String) : Bool :=
  db.processed_signatures.any (fun r => r.signature == signature)

/-- markSignatureProcessed (src/database/queries.ts): a plain insert into
processed_signatures. The signature column is the primary key, so a
duplicate insert yields a unique-violation error, and the source rethrows
any insert error to its caller. -/
def markSignatureProcessed (db : Database) (signature walletAddress : String) :
    Except DbError Database :=
  if db.processed_signatures.any (fun r => r.signature == signature) then
    Except.error DbError.uniqueViolation
  else
    Except.ok { db with processed_signatures :=
      db.processed_signatures ++ [{ signature := signature, wallet_address := walletAddress }] }

/-- recordBuyTransaction (src/database/queries.ts): inserts a new open
position unconditionally; the buy_signature column is UNIQUE, so a
colliding signature yields an error, which the source rethrows. -/
def recordBuyTransaction (db : Database) (data : BuyTransactionData) :
    Except DbError Database :=
  if db.positions.any (fun p => p.buy_signature == data.signature) then
    Except.error DbError.uniqueViolation
  else
    Except.ok { db with
      positions := db.positions ++ [{
        id := db.nextId
        wallet_address := data.walletAddress
        token_mint := data.tokenMint
        token_symbol := data.tokenSymbol
        token_name := data.tokenName
        buy_signature := data.signature
        buy_timestamp := data.timestamp * 1000
        buy_price_usd := data.priceUsd
        buy_amount := data.amount
        buy_value_usd := data.valueUsd
        sell_signature := none
        sell_timestamp := none
        sell_price_usd := none
        sell_amount := none
        sell_value_usd := none
        hold_duration_seconds := none
        profit_loss_usd := none
        profit_loss_percent := none
        is_open := true }]
      nextId := db.nextId + 1 }

/-- Predicate of the open-position query: rows of the (wallet, token) pair
with is_open = true. -/
def openRowFor (walletAddress tokenMint : String) (p : Position) : Bool :=
  p.wallet_address == walletAddress && p.token_mint == tokenMint && p.is_open

/-- Accumulator of the most-recent-open-row selection: keep the row with
the greater buy_timestamp (the earlier row on ties). -/
def newerOpenRow (best : Option Position) (p : Position) : Option Position :=
  match best with
  | none => some p
  | some q => if q.buy_timestamp < p.buy_timestamp then some p else some q

/-- getOpenPosition (src/database/queries.ts): among the open rows of the
pair, the one with the greatest buy_timestamp, mirroring
`ORDER BY buy_timestamp DESC LIMIT 1` (ties, left unordered by the query,
keep the earlier row). -/
def getOpenPosition (db : Database) (walletAddress tokenMint : String) :
    Option Position :=
  (db.positions.filter (openRowFor walletAddress tokenMint)).foldl newerOpenRow none

/-- recordSellTransaction (src/database/queries.ts): looks up the open
position; absent one it only warns and returns, writing nothing. Otherwise
it computes hold duration and profit/loss and updates the row with the
matching id, closing it. -/
def recordSellTransaction (db : Database) (data : SellTransactionData) : Database :=
  match getOpenPosition db data.walletAddress data.tokenMint with
  | none => db
  | some position =>
    let buyTimestamp := position.buy_timestamp
    let sellTimestamp := data.timestamp * 1000
    let holdDurationSeconds := Int.fdiv (sellTimestamp - buyTimestamp) 1000
    let profitLossUsd := data.valueUsd - position.buy_value_usd
    let profitLossPercent :=
      (data.priceUsd - position.buy_price_usd) / position.buy_price_usd * 100
    { db with positions := db.positions.map (fun p =>
        if p.id == position.id then
          { p with
            sell_signature := some data.signature
            sell_timestamp := some sellTimestamp
            sell_price_usd := some data.priceUsd
            sell_amount := some data.amount
            sell_value_usd := some data.valueUsd
            hold_duration_seconds := some holdDurationSeconds
            profit_loss_usd := some profitLossUsd
            profit_loss_percent := some profitLossPercent
            is_open := false }
        else p) }

/-- A position-store operation of the pipeline: a recorded buy or sell. -/
inductive DbOp where
  | buy (data : BuyTransactionData)
  | sell (data : SellTransactionData)
deriving DecidableEq, Repr

/-- One store operation as the pipeline performs it: a unique-violation
error from recordBuyTransaction is caught by the per-wallet handler, so
the store is left unchanged in that case. -/
def applyDbOp (db : Database) (op : DbOp) : Database :=
  match op with
  | DbOp.buy data =>
    match recordBuyTransaction db data with
    | Except.ok db2 => db2
    | Except.error _ => db
  | DbOp.sell data => recordSellTransaction db data

/-- A sequence of recorded buys and sells applied in order. -/
def runDbOps (db : Database) (ops : List DbOp) : Database :=
  ops.foldl applyDbOp db

/-- Number of open rows of a (wallet, token) pair in the positions table. -/
def openCount (db : Database) (walletAddress tokenMint : String) : Nat :=
  (db.positions.filter (openRowFor walletAddress tokenMint)).length

/-- A sequence of store operations is guarded when every recorded buy is
issued while its own (wallet, token) pair has no open position, as a
classification-driven pipeline that closes before reopening would do. -/
def guardedOps (db : Database) : List DbOp → Bool
  | [] => true
  | op :: rest =>
    (match op with
     | DbOp.buy data => (getOpenPosition db data.walletAddress data.tokenMint).isNone
     | DbOp.sell _ => true)
    && guardedOps (applyDbOp db op) rest

/-- The transactions the per-wallet loop of processWallet
(src/database/supabase.ts lines 70-86) actually reaches: the fetched batch
is reversed to chronological order and the loop breaks at the first
transaction whose signature equals the previous watermark. -/
def reachedTransactions (transactions : List HeliusTransaction)
    (lastProcessed : Option String) : List HeliusTransaction :=
  let reversedTxs := transactions.reverse
  match lastProcessed with
  | none => reversedTxs
  | some s => reversedTxs.takeWhile (fun tx => tx.signature != s)

/-- Watermark update after the walk (src/database/supabase.ts lines
181-184): the newest signature of a non-empty batch, else unchanged. -/
def updatedLastProcessed (transactions : List HeliusTransaction)
    (lastProcessed : Option String) : Option String :=
  match transactions with
  | [] => lastProcessed
  | t :: _ => some t.signature

/-- A token transfer is eligible for classification when its mint is not
wrapped SOL and it involves the wallet on either side. -/
def eligibleTransfer (walletAddress : String) (t : HeliusTokenTransfer) : Bool :=
  t.mint != WRAPPED_SOL
    && (matchesWallet t.toUserAccount walletAddress
        || matchesWallet t.fromUserAccount walletAddress)

/-- A token transfer supplies the USD value directly when it is a
stablecoin moving in the direction matching the wallet's role: sent by the
wallet for a buy, received by it for a sell. -/
def stablecoinDirectional (walletAddress : String) (isBuy : Bool)
    (t : HeliusTokenTransfer) : Bool :=
  (t.mint == USDC_MINT || t.mint == USDT_MINT)
    && (if isBuy then matchesWallet t.fromUserAccount walletAddress
        else matchesWallet t.toUserAccount walletAddress)

/-- Concrete fixtures used by counterexamples and witnesses. -/
def buyData1 : BuyTransactionData :=
  { walletAddress := "w", tokenMint := "m", tokenSymbol := "m", tokenName := "m",
    signature := "s1", timestamp := 100, priceUsd := 1, amount := 5, valueUsd := 5 }

def buyData2 : BuyTransactionData :=
  { buyData1 with signature := "s2", timestamp := 200 }

def sellData1 : SellTransactionData :=
  { walletAddress := "w", tokenMint := "m", signature := "s3", timestamp := 300,
    priceUsd := 2, amount := 5, valueUsd := 10 }

def txOld : HeliusTransaction :=
  { type := "SWAP", signature := "sigA", timestamp := 10, tokenTransfers := [],
    nativeTransfers := [], transactionError := false }

def txNew : HeliusTransaction :=
  { txOld with signature := "sigB", timestamp := 20 }

def dbProcessed : Database :=
  { positions := [], nextId := 0,
    processed_signatures := [{ signature := "s1", wallet_address := "w1" }] }

def txNotSwap : HeliusTransaction :=
  { type := "TRANSFER", signature := "s4", timestamp := 40, tokenTransfers := [],
    nativeTransfers := [], transactionError := false }

def wsTransfer : HeliusTokenTransfer :=
  { fromUserAccount := some "x", toUserAccount := some "w", mint := WRAPPED_SOL,
    tokenAmount := 3 }

def usdcTransfer : HeliusTokenTransfer :=
  { fromUserAccount := some "w", toUserAccount := some "x", mint := USDC_MINT,
    tokenAmount := 25 }

def positionOpen25k : Position :=
  { id := 0, wallet_address := "w", token_mint := "m", token_symbol := "m",
    token_name := "m", buy_signature := "s1", buy_timestamp := 1000000,
    buy_price_usd := 25 / 1000000, buy_amount := 1000000000, buy_value_usd := 25000,
    sell_signature := none, sell_timestamp := none, sell_price_usd := none,
    sell_amount := none, sell_value_usd := none, hold_duration_seconds := none,
    profit_loss_usd := none, profit_loss_percent := none, is_open := true }

def dbOpen25k : Database :=
  { positions := [positionOpen25k], processed_signatures := [], nextId := 1 }

def sellData35k : SellTransactionData :=
  { walletAddress := "w", tokenMint := "m", signature := "s2", timestamp := 2000,
    priceUsd := 35 / 1000000, amount := 1000000000, valueUsd := 35000 }

def transferZeroAmount : HeliusTokenTransfer :=
  { fromUserAccount := some "x", toUserAccount := some "w", mint := "mintM",
    tokenAmount := 0 }

def transferUsdcOut : HeliusTokenTransfer :=
  { fromUserAccount := some "w", toUserAccount := some "x", mint := USDC_MINT,
    tokenAmount := 5 }

def txZeroAmount : HeliusTransaction :=
  { type := "SWAP", signature := "sZero", timestamp := 50,
    tokenTransfers := [transferZeroAmount, transferUsdcOut],
    nativeTransfers := [], transactionError := false }

def parsedZero : ParsedTokenTransfer :=
  { type := "buy", tokenMint := "mintM", tokenSymbol := "mintM",
    tokenName := "mintM", amount := 0, priceUsd := JsVal.posInf, valueUsd := 5,
    signature := "sZero", timestamp := 50 }

def transferMintM : HeliusTokenTransfer :=
  { fromUserAccount := some "x", toUserAccount := some "w", mint := "mintM",
    tokenAmount := 5 }

def txBuyOld : HeliusTransaction :=
  { type := "SWAP", signature := "sOld", timestamp := 100000,
    tokenTransfers := [transferMintM], nativeTransfers := [],
    transactionError := false }

def creationAtZero : String → Option ℤ :=
  fun _ => some 0

def creationAtOne : String → Option ℤ :=
  fun _ => some 1

def parsedOldBuy : ParsedTokenTransfer :=
  { type := "buy", tokenMint := "mintM", tokenSymbol := "mintM",
    tokenName := "mintM", amount := 5, priceUsd := jsDiv 0 5,
    valueUsd := 0, signature := "sOld", timestamp := 100000 }

def sellNoPosition : SellTransactionData :=
  { walletAddress := "w9", tokenMint := "m9", signature := "s9", timestamp := 10,
    priceUsd := 1, amount := 1, valueUsd := 1 }

lemma findTokenTransfer_eq_find (walletAddress : String)
    (l : List HeliusTokenTransfer) :
    findTokenTransfer walletAddress l =
      (l.find? (eligibleTransfer walletAddress)).map
        (fun t => (matchesWallet t.toUserAccount walletAddress, t)) := by
  induction l with
  | nil => rfl
  | cons t rest ih =>
    by_cases hmint : (t.mint == WRAPPED_SOL) = true
    · have hm : t.mint = WRAPPED_SOL := by simpa using hmint
      have helig : eligibleTransfer walletAddress t = false := by
        simp [eligibleTransfer, hm]
      simp [findTokenTransfer, hmint, List.find?_cons_of_neg, helig, ih]
    · have hmb : (t.mint == WRAPPED_SOL) = false := by
        simpa using hmint
      have hm : ¬ t.mint = WRAPPED_SOL := by simpa using hmint
      by_cases hto : matchesWallet t.toUserAccount walletAddress = true
      · have helig : eligibleTransfer walletAddress t = true := by
          simp [eligibleTransfer, hm, hto]
        simp [findTokenTransfer, hmb, hto, List.find?_cons_of_pos, helig]
      · have htob : matchesWallet t.toUserAccount walletAddress = false := by
          simpa using hto
        by_cases hfrom : matchesWallet t.fromUserAccount walletAddress = true
        · have helig : eligibleTransfer walletAddress t = true := by
            simp [eligibleTransfer, hm, hfrom]
          simp [findTokenTransfer, hmb, htob, hfrom, List.find?_cons_of_pos,
            helig]
        · have hfromb : matchesWallet t.fromUserAccount walletAddress = false := by
            simpa using hfrom
          have helig : eligibleTransfer walletAddress t = false := by
            simp [eligibleTransfer, hmb, htob, hfromb]
          simp [findTokenTransfer, hmb, htob, hfromb, List.find?_cons_of_neg,
            helig, ih]

lemma findStablecoinValue_eq_find (walletAddress : String) (isBuy : Bool)
    (l : List HeliusTokenTransfer) :
    findStablecoinValue walletAddress isBuy l =
      (l.find? (stablecoinDirectional walletAddress isBuy)).map
        HeliusTokenTransfer.tokenAmount := by
  induction l with
  | nil => rfl
  | cons t rest ih =>
    by_cases h : stablecoinDirectional walletAddress isBuy t = true
    · have hcond : ((t.mint == USDC_MINT || t.mint == USDT_MINT)
          && (if isBuy then matchesWallet t.fromUserAccount walletAddress
              else matchesWallet t.toUserAccount walletAddress)) = true := h
      simp [findStablecoinValue, hcond, List.find?_cons_of_pos, h]
    · have hcond : ((t.mint == USDC_MINT || t.mint == USDT_MINT)
          && (if isBuy then matchesWallet t.fromUserAccount walletAddress
              else matchesWallet t.toUserAccount walletAddress)) = false := by
        simpa [stablecoinDirectional] using h
      simp [findStablecoinValue, hcond, List.find?_cons_of_neg,
        Bool.eq_false_iff.mp hcond, ih]
      simp [stablecoinDirectional, hcond]

lemma foldl_newerOpenRow_ne_none (l : List Position) (p : Position) :
    l.foldl newerOpenRow (some p) ≠ none := by
  induction l generalizing p with
  | nil => simp
  | cons a l ih =>
    have : newerOpenRow (some p) a = some a ∨ newerOpenRow (some p) a = some p := by
      unfold newerOpenRow
      by_cases h : p.buy_timestamp < a.buy_timestamp <;> simp [h]
    rcases this with h | h <;> simp only [List.foldl_cons, h] <;> exact ih _

lemma foldl_newerOpenRow_mem (l : List Position) :
    ∀ (acc : Option Position) (q : Position),
      l.foldl newerOpenRow acc = some q → q ∈ l ∨ acc = some q := by
  induction l with
  | nil =>
    intro acc q h
    right
    simpa using h
  | cons a l ih =>
    intro acc q h
    simp only [List.foldl_cons] at h
    rcases ih (newerOpenRow acc a) q h with hmem | hacc
    · exact Or.inl (List.mem_cons_of_mem a hmem)
    · cases acc with
      | none =>
        left
        have : q = a := by
          have := hacc
          unfold newerOpenRow at this
          simpa using this.symm
        simp [this]
      | some b =>
        unfold newerOpenRow at hacc
        by_cases hlt : b.buy_timestamp < a.buy_timestamp
        · left
          simp only [if_pos hlt] at hacc
          simp [Option.some_inj.mp hacc |>.symm]
        · right
          simp only [if_neg hlt] at hacc
          exact hacc

lemma getOpenPosition_eq_none_iff (db : Database) (walletAddress tokenMint : String) :
    getOpenPosition db walletAddress tokenMint = none ↔
      db.positions.filter (openRowFor walletAddress tokenMint) = [] := by
  constructor
  · intro h
    cases hfil : db.positions.filter (openRowFor walletAddress tokenMint) with
    | nil => rfl
    | cons p rest =>
      exfalso
      unfold getOpenPosition at h
      rw [hfil] at h
      simp only [List.foldl_cons] at h
      have hstep : newerOpenRow none p = some p := rfl
      rw [hstep] at h
      exact foldl_newerOpenRow_ne_none rest p h
  · intro h
    unfold getOpenPosition
    rw [h]
    rfl

lemma getOpenPosition_eq_none_iff_openCount (db : Database)
    (walletAddress tokenMint : String) :
    getOpenPosition db walletAddress tokenMint = none ↔
      openCount db walletAddress tokenMint = 0 := by
  rw [getOpenPosition_eq_none_iff]
  unfold openCount
  simp [List.length_eq_zero]

lemma getOpenPosition_mem (db : Database) (walletAddress tokenMint : String)
    (position : Position)
    (h : getOpenPosition db walletAddress tokenMint = some position) :
    position ∈ db.positions ∧
      openRowFor walletAddress tokenMint position = true := by
  unfold getOpenPosition at h
  rcases foldl_newerOpenRow_mem _ _ _ h with hmem | hacc
  · exact ⟨(List.mem_filter.mp hmem).1, (List.mem_filter.mp hmem).2⟩
  · cases hacc

lemma length_filter_map_le {α : Type} (g : α → α) (q : α → Bool)
    (h : ∀ a, q (g a) = true → q a = true) (l : List α) :
    ((l.map g).filter q).length ≤ (l.filter q).length := by
  induction l with
  | nil => simp
  | cons a l ih =>
    simp only [List.map_cons, List.filter_cons]
    cases hq : q (g a) with
    | true =>
      rw [h a hq]
      simpa using ih
    | false =>
      cases hqa : q a with
      | true => simpa using Nat.le_succ_of_le ih
      | false => simpa using ih

lemma openCount_recordSell_le (db : Database) (data : SellTransactionData)
    (walletAddress tokenMint : String) :
    openCount (recordSellTransaction db data) walletAddress tokenMint ≤
      openCount db walletAddress tokenMint := by
  unfold recordSellTransaction
  cases hget : getOpenPosition db data.walletAddress data.tokenMint with
  | none => exact Nat.le_refl _
  | some position =>
    unfold openCount
    simp only
    apply length_filter_map_le
    intro p hp
    by_cases hid : (p.id == position.id) = true
    · rw [if_pos hid] at hp
      simp [openRowFor] at hp
    · rw [if_neg hid] at hp
      exact hp

lemma openCount_recordBuy_ok (db db2 : Database) (data : BuyTransactionData)
    (walletAddress tokenMint : String)
    (h : recordBuyTransaction db data = Except.ok db2) :
    openCount db2 walletAddress tokenMint =
      openCount db walletAddress tokenMint +
        (if data.walletAddress == walletAddress && data.tokenMint == tokenMint
         then 1 else 0) := by
  unfold recordBuyTransaction at h
  by_cases hdup : (db.positions.any (fun p => p.buy_signature == data.signature)) = true
  · rw [if_pos hdup] at h
    cases h
  · rw [if_neg hdup] at h
    have hdb2 := (Except.ok.injEq _ _).mp h
    subst hdb2
    unfold openCount
    simp only [List.filter_append, List.length_append]
    congr 1
    by_cases hw : data.walletAddress = walletAddress
    · by_cases hm : data.tokenMint = tokenMint
      · simp [openRowFor, hw, hm]
      · simp [openRowFor, hw, hm]
    · simp [openRowFor, hw]

lemma guarded_openCount_le_one (ops : List DbOp) :
    ∀ db : Database, (∀ w m, openCount db w m ≤ 1) →
      guardedOps db ops = true →
      ∀ w m, openCount (runDbOps db ops) w m ≤ 1 := by
  induction ops with
  | nil =>
    intro db hinv _ w m
    exact hinv w m
  | cons op rest ih =>
    intro db hinv hg w m
    have hrun : runDbOps db (op :: rest) = runDbOps (applyDbOp db op) rest := rfl
    rw [hrun]
    have hsplit := hg
    simp only [guardedOps, Bool.and_eq_true] at hsplit
    refine ih (applyDbOp db op) ?_ hsplit.2 w m
    intro w2 m2
    cases op with
    | sell data =>
      exact Nat.le_trans (openCount_recordSell_le db data w2 m2) (hinv w2 m2)
    | buy data =>
      have hguard : getOpenPosition db data.walletAddress data.tokenMint = none := by
        have := hsplit.1
        simpa [Option.isNone_iff_eq_none] using this
      show openCount (applyDbOp db (DbOp.buy data)) w2 m2 ≤ 1
      cases hrec : recordBuyTransaction db data with
      | error e =>
        simp only [applyDbOp, hrec]
        exact hinv w2 m2
      | ok db2 =>
        simp only [applyDbOp, hrec]
        rw [openCount_recordBuy_ok db db2 data w2 m2 hrec]
        by_cases hcond :
            (data.walletAddress == w2 && data.tokenMint == m2) = true
        · rw [if_pos hcond]
          have hw : data.walletAddress = w2 := by
            have := (Bool.and_eq_true _ _).mp hcond |>.1
            simpa using this
          have hm : data.tokenMint = m2 := by
            have := (Bool.and_eq_true _ _).mp hcond |>.2
            simpa using this
          have hzero : openCount db w2 m2 = 0 := by
            rw [← hw, ← hm]
            exact (getOpenPosition_eq_none_iff_openCount db _ _).mp hguard
          omega
        · rw [if_neg hcond]
          simpa using hinv w2 m2

lemma parse_some_shape (MAX_TOKEN_AGE_MINUTES : ℤ)
    (getTokenCreationTime : String → Option ℤ) (tx : HeliusTransaction)
    (walletAddress : String) (p : ParsedTokenTransfer)
    (h : parseSwapTransaction MAX_TOKEN_AGE_MINUTES getTokenCreationTime
          tx walletAddress = some p) :
    tx.type = "SWAP" ∧ tx.transactionError = false ∧
    ∃ isBuy tokenTransfer,
      findTokenTransfer walletAddress tx.tokenTransfers = some (isBuy, tokenTransfer) ∧
      p.type = (if isBuy then "buy" else "sell") ∧
      p.tokenMint = tokenTransfer.mint ∧
      p.amount = tokenTransfer.tokenAmount ∧
      p.valueUsd =
        calculateUSDValue tx.tokenTransfers tx.nativeTransfers walletAddress isBuy ∧
      p.priceUsd = jsDiv p.valueUsd p.amount ∧
      p.signature = tx.signature ∧ p.timestamp = tx.timestamp := by
  unfold parseSwapTransaction at h
  split at h
  · cases h
  next h1 =>
    have hswap : tx.type = "SWAP" := by simpa using h1
    split at h
    · cases h
    next herr =>
      have herr2 : tx.transactionError = false := by simpa using herr
      refine ⟨hswap, herr2, ?_⟩
      split at h
      · cases h
      next isBuy tokenTransfer hfind =>
        refine ⟨isBuy, tokenTransfer, hfind, ?_⟩
        split at h
        next hbuy =>
          subst hbuy
          split at h
          next creationTime hct =>
            dsimp only at h
            split at h
            · split at h
              · cases h
              · have hp := (Option.some_inj.mp h).symm
                subst hp
                exact ⟨rfl, rfl, rfl, rfl, rfl, rfl, rfl⟩
            · have hp := (Option.some_inj.mp h).symm
              subst hp
              exact ⟨rfl, rfl, rfl, rfl, rfl, rfl, rfl⟩
          next hct =>
            have hp := (Option.some_inj.mp h).symm
            subst hp
            exact ⟨rfl, rfl, rfl, rfl, rfl, rfl, rfl⟩
        next hbuy =>
          have hb : isBuy = false := by simpa using hbuy
          subst hb
          have hp := (Option.some_inj.mp h).symm
          subst hp
          exact ⟨rfl, rfl, rfl, rfl, rfl, rfl, rfl⟩

/-- Claim C1, counterexample: starting from the empty store, two recorded
buys of the same (wallet, token) pair with distinct signatures leave two
rows with is_open = true for that pair, so the at-most-one-open invariant
fails for unrestricted sequences of recordBuy/recordSell operations. -/
theorem two_buys_double_open :
    ¬ openCount (runDbOps emptyDatabase [DbOp.buy buyData1, DbOp.buy buyData2])
        "w" "m" ≤ 1 := by
  decide

/-- Claim C1, amended: for every sequence of recordBuy and recordSell
operations from the empty store in which each buy is recorded only while
its own (wallet, token) pair has no open position, the positions table
contains at most one row with is_open = true for every pair. -/
theorem guarded_at_most_one_open (ops : List DbOp)
    (h : guardedOps emptyDatabase ops = true) (walletAddress tokenMint : String) :
    openCount (runDbOps emptyDatabase ops) walletAddress tokenMint ≤ 1 :=
  guarded_openCount_le_one ops emptyDatabase
    (fun _ _ => by simp [openCount, emptyDatabase]) h walletAddress tokenMint

/-- Claim C1, witness: a guarded buy, sell, buy sequence for one pair
keeps at most one open row. -/
theorem guarded_at_most_one_open_witness :
    guardedOps emptyDatabase
        [DbOp.buy buyData1, DbOp.sell sellData1, DbOp.buy buyData2] = true ∧
      openCount
        (runDbOps emptyDatabase
          [DbOp.buy buyData1, DbOp.sell sellData1, DbOp.buy buyData2])
        "w" "m" ≤ 1 :=
  ⟨by decide, guarded_at_most_one_open _ (by decide) "w" "m"⟩

/-- Claim C2, evaluation at the failing input: with a newest-first batch
of a new transaction txNew followed by the already-seen txOld, and the
watermark at txOld's signature, the per-wallet loop reaches no transaction
at all (in particular not the strictly newer txNew), yet the watermark
still advances to txNew's signature; with no watermark the whole batch is
walked oldest first. -/
theorem watermark_walk_skips_new_transactions :
    reachedTransactions [txNew, txOld] (some "sigA") = [] ∧
      reachedTransactions [txNew, txOld] (some "sigA") ≠ [txNew] ∧
      updatedLastProcessed [txNew, txOld] (some "sigA") = some "sigB" ∧
      reachedTransactions [txNew, txOld] none = [txOld, txNew] := by
  decide

/-- Claim C3, counterexample: inserting an already-present signature makes
markSignatureProcessed surface the unique-violation error instead of being
a no-op. -/
theorem duplicate_mark_raises :
    markSignatureProcessed dbProcessed "s1" "w2" =
      Except.error DbError.uniqueViolation := by
  rfl

/-- Claim C3, amended: for every signature already present in the
processed_signatures store, calling markSignatureProcessed again raises
the duplicate-insert unique-violation error to its caller (the store
itself is unchanged, no row being written). -/
theorem markSignatureProcessed_duplicate_error (db : Database)
    (signature walletAddress : String)
    (h : isSignatureProcessed db signature = true) :
    markSignatureProcessed db signature walletAddress =
      Except.error DbError.uniqueViolation := by
  unfold markSignatureProcessed
  unfold isSignatureProcessed at h
  rw [if_pos h]

/-- Claim C3, witness: the duplicate-error behaviour at a concrete store
holding the signature. -/
theorem markSignatureProcessed_duplicate_error_witness :
    isSignatureProcessed dbProcessed "s1" = true ∧
      markSignatureProcessed dbProcessed "s1" "w1" =
        Except.error DbError.uniqueViolation :=
  ⟨by decide, markSignatureProcessed_duplicate_error dbProcessed "s1" "w1" (by decide)⟩

/-- Claim C9: shouldNotifyBuy is true exactly at values at or above the
configured minimum; at the default threshold 1000 the boundary cases
999.99 and 1000.00 fall as claimed, and shouldNotifySell is true. -/
theorem shouldNotify_filters :
    (∀ MIN_BUY_VALUE_USD v : ℚ,
        (shouldNotifyBuy MIN_BUY_VALUE_USD v = true ↔ MIN_BUY_VALUE_USD ≤ v))
      ∧ shouldNotifyBuy 1000 (99999 / 100) = false
      ∧ shouldNotifyBuy 1000 1000 = true
      ∧ shouldNotifySell = true := by
  refine ⟨fun MIN_BUY_VALUE_USD v => ?_, ?_, ?_, rfl⟩
  · simp [shouldNotifyBuy]
  · simp only [shouldNotifyBuy, decide_eq_false_iff_not, not_le]
    norm_num
  · simp [shouldNotifyBuy]

/-- Claim C10: a recorded sell for a (wallet, token) pair with no open
position returns without writing anything, leaving the store unchanged. -/
theorem recordSellTransaction_no_open_noop (db : Database)
    (data : SellTransactionData)
    (h : getOpenPosition db data.walletAddress data.tokenMint = none) :
    recordSellTransaction db data = db := by
  unfold recordSellTransaction
  rw [h]

/-- Claim C10, witness: a sell against the empty store is a no-op. -/
theorem recordSellTransaction_no_open_noop_witness :
    recordSellTransaction emptyDatabase sellNoPosition = emptyDatabase :=
  recordSellTransaction_no_open_noop emptyDatabase sellNoPosition rfl

/-- Claim C4: the classifier returns none for non-SWAP transactions, for
failed transactions, and when no transfer involves the wallet; the
transfer it classifies on is the first one in source order whose mint is
not wrapped SOL and which involves the wallet, tagged buy exactly when
that transfer's receiver is the wallet and sell exactly when it is not
(its sender then being the wallet). -/
theorem parseSwapTransaction_classification (MAX_TOKEN_AGE_MINUTES : ℤ)
    (getTokenCreationTime : String → Option ℤ) (tx : HeliusTransaction)
    (walletAddress : String) :
    (tx.type ≠ "SWAP" →
        parseSwapTransaction MAX_TOKEN_AGE_MINUTES getTokenCreationTime
          tx walletAddress = none)
      ∧ (tx.transactionError = true →
        parseSwapTransaction MAX_TOKEN_AGE_MINUTES getTokenCreationTime
          tx walletAddress = none)
      ∧ (findTokenTransfer walletAddress tx.tokenTransfers = none →
        parseSwapTransaction MAX_TOKEN_AGE_MINUTES getTokenCreationTime
          tx walletAddress = none)
      ∧ findTokenTransfer walletAddress tx.tokenTransfers =
          (tx.tokenTransfers.find? (eligibleTransfer walletAddress)).map
            (fun t => (matchesWallet t.toUserAccount walletAddress, t))
      ∧ (∀ p, parseSwapTransaction MAX_TOKEN_AGE_MINUTES getTokenCreationTime
            tx walletAddress = some p →
          ∃ t, tx.tokenTransfers.find? (eligibleTransfer walletAddress) = some t ∧
            (p.type = "buy" ↔ matchesWallet t.toUserAccount walletAddress = true) ∧
            (p.type = "sell" ↔ matchesWallet t.toUserAccount walletAddress = false) ∧
            (p.type = "sell" →
              matchesWallet t.fromUserAccount walletAddress = true) ∧
            p.tokenMint = t.mint) := by
  refine ⟨?_, ?_, ?_, findTokenTransfer_eq_find walletAddress tx.tokenTransfers, ?_⟩
  · intro h
    have hb : (tx.type != "SWAP") = true := by simpa using h
    simp [parseSwapTransaction, hb]
  · intro h
    simp [parseSwapTransaction, h]
  · intro h
    simp [parseSwapTransaction, h]
  · intro p hp
    obtain ⟨-, -, isBuy, tokenTransfer, hfind, htype, hmint, -⟩ :=
      parse_some_shape MAX_TOKEN_AGE_MINUTES getTokenCreationTime tx
        walletAddress p hp
    rw [findTokenTransfer_eq_find] at hfind
    cases hfq : tx.tokenTransfers.find? (eligibleTransfer walletAddress) with
    | none =>
      rw [hfq] at hfind
      cases hfind
    | some t =>
      rw [hfq] at hfind
      simp only [Option.map_some', Option.some_inj, Prod.mk.injEq] at hfind
      obtain ⟨hdir, hteq⟩ := hfind
      subst hteq
      have helig : eligibleTransfer walletAddress t = true := List.find?_some hfq
      refine ⟨t, rfl, ?_, ?_, ?_, hmint⟩
      · cases isBuy with
        | true => simp [htype, ← hdir]
        | false => simp [htype, ← hdir]
      · cases isBuy with
        | true => simp [htype, ← hdir]
        | false => simp [htype, ← hdir]
      · intro hsell
        have hto : matchesWallet t.toUserAccount walletAddress = false := by
          cases isBuy with
          | true => simp [htype] at hsell
          | false => exact hdir
        simp only [eligibleTransfer, Bool.and_eq_true, Bool.or_eq_true, hto] at helig
        rcases helig.2 with hfalse | hfrom
        · cases hfalse
        · exact hfrom

/-- Claim C4, witness: a non-swap transaction is rejected by the
classifier. -/
theorem parseSwapTransaction_classification_witness :
    parseSwapTransaction 60 creationAtZero txNotSwap "w" = none :=
  (parseSwapTransaction_classification 60 creationAtZero txNotSwap "w").1
    (by decide)

/-- Claim C5: when the transfers contain a wrapped-SOL transfer and also a
stablecoin transfer moving in the direction matching the wallet's role
(sent by the wallet for a buy, received for a sell), the derived USD value
is exactly the first such stablecoin transfer's amount; the wrapped-SOL
price estimate is not consulted. -/
theorem calculateUSDValue_stablecoin_priority
    (tokenTransfers : List HeliusTokenTransfer)
    (nativeTransfers : List HeliusNativeTransfer)
    (walletAddress : String) (isBuy : Bool) (t : HeliusTokenTransfer)
    (_hws : ∃ ws ∈ tokenTransfers, ws.mint = WRAPPED_SOL)
    (hfind : tokenTransfers.find?
        (stablecoinDirectional walletAddress isBuy) = some t) :
    calculateUSDValue tokenTransfers nativeTransfers walletAddress isBuy =
      t.tokenAmount := by
  unfold calculateUSDValue
  rw [findStablecoinValue_eq_find, hfind]
  rfl

/-- Claim C5, witness: a buy with both a wrapped-SOL transfer and a
25-USDC transfer out of the wallet is valued at the USDC amount. -/
theorem calculateUSDValue_stablecoin_priority_witness :
    calculateUSDValue [wsTransfer, usdcTransfer] [] "w" true =
      usdcTransfer.tokenAmount :=
  calculateUSDValue_stablecoin_priority [wsTransfer, usdcTransfer] [] "w" true
    usdcTransfer ⟨wsTransfer, by decide, rfl⟩ (by decide)

/-- Claim C6: on every close of an open position, recordSellTransaction
writes profit_loss_usd = sellValueUsd - buyValueUsd and
profit_loss_percent = (sellPriceUsd - buyPriceUsd) / buyPriceUsd * 100
into the closed row; in particular, closing a position bought for 25000
USD at price 0.000025 with a sell of 35000 USD at price 0.000035 records
profit_loss_usd = 10000 and profit_loss_percent = 40. -/
theorem recordSellTransaction_profit_loss :
    (∀ (db : Database) (data : SellTransactionData) (position : Position),
        getOpenPosition db data.walletAddress data.tokenMint = some position →
        ∃ p ∈ (recordSellTransaction db data).positions,
          p.id = position.id ∧
          p.profit_loss_usd = some (data.valueUsd - position.buy_value_usd) ∧
          p.profit_loss_percent =
            some ((data.priceUsd - position.buy_price_usd) /
              position.buy_price_usd * 100) ∧
          p.is_open = false)
      ∧ ∃ p ∈ (recordSellTransaction dbOpen25k sellData35k).positions,
          p.profit_loss_usd = some 10000 ∧
          p.profit_loss_percent = some 40 ∧
          p.is_open = false := by
  have hgen : ∀ (db : Database) (data : SellTransactionData) (position : Position),
      getOpenPosition db data.walletAddress data.tokenMint = some position →
      ∃ p ∈ (recordSellTransaction db data).positions,
        p.id = position.id ∧
        p.profit_loss_usd = some (data.valueUsd - position.buy_value_usd) ∧
        p.profit_loss_percent =
          some ((data.priceUsd - position.buy_price_usd) /
            position.buy_price_usd * 100) ∧
        p.is_open = false := by
    intro db data position h
    obtain ⟨hmem, -⟩ := getOpenPosition_mem db _ _ position h
    unfold recordSellTransaction
    rw [h]
    dsimp only
    refine ⟨_, List.mem_map_of_mem _ hmem, ?_⟩
    rw [if_pos (beq_self_eq_true position.id)]
    exact ⟨rfl, rfl, rfl, rfl⟩
  refine ⟨hgen, ?_⟩
  obtain ⟨p, hp, -, h1, h2, h3⟩ :=
    hgen dbOpen25k sellData35k positionOpen25k rfl
  refine ⟨p, hp, ?_, ?_, h3⟩
  · rw [h1]
    norm_num [sellData35k, positionOpen25k]
  · rw [h2]
    norm_num [sellData35k, positionOpen25k]

/-- Claim C6, witness: the general close computation applied to the
concrete 25000-buy, 35000-sell store. -/
theorem recordSellTransaction_profit_loss_witness :
    ∃ p ∈ (recordSellTransaction dbOpen25k sellData35k).positions,
      p.id = positionOpen25k.id ∧
      p.profit_loss_usd =
        some (sellData35k.valueUsd - positionOpen25k.buy_value_usd) ∧
      p.profit_loss_percent =
        some ((sellData35k.priceUsd - positionOpen25k.buy_price_usd) /
          positionOpen25k.buy_price_usd * 100) ∧
      p.is_open = false :=
  recordSellTransaction_profit_loss.1 dbOpen25k sellData35k positionOpen25k rfl

/-- Claim C7, counterexample: a swap whose matched transfer has amount 0
is parsed with priceUsd equal to the unguarded JavaScript division result
Infinity, not the claimed defined 0/undefined sentinel; the transfer is
still returned. -/
theorem zero_amount_price_unguarded :
    (parseSwapTransaction 60 (fun _ => none) txZeroAmount "w").map
        ParsedTokenTransfer.priceUsd = some JsVal.posInf ∧
      JsVal.posInf ≠ JsVal.finite 0 ∧ JsVal.posInf ≠ JsVal.nan := by
  refine ⟨by decide, by decide, by decide⟩

/-- Claim C7, amended: the price derivation is not guarded; whenever the
classifier returns a transfer whose amount is 0, the priceUsd field is the
JavaScript division of valueUsd by zero (Infinity, NaN or -Infinity by the
sign of valueUsd), never the finite value 0, while the transfer itself is
still returned and can open or close a position. -/
theorem parseSwapTransaction_zero_amount_division (MAX_TOKEN_AGE_MINUTES : ℤ)
    (getTokenCreationTime : String → Option ℤ) (tx : HeliusTransaction)
    (walletAddress : String) (p : ParsedTokenTransfer)
    (h : parseSwapTransaction MAX_TOKEN_AGE_MINUTES getTokenCreationTime
        tx walletAddress = some p)
    (hz : p.amount = 0) :
    p.priceUsd = jsDiv p.valueUsd 0 ∧
      (0 < p.valueUsd → p.priceUsd = JsVal.posInf) ∧
      (p.valueUsd = 0 → p.priceUsd = JsVal.nan) ∧
      (p.valueUsd < 0 → p.priceUsd = JsVal.negInf) ∧
      p.priceUsd ≠ JsVal.finite 0 := by
  obtain ⟨-, -, isBuy, tokenTransfer, -, -, -, -, -, hprice, -⟩ :=
    parse_some_shape MAX_TOKEN_AGE_MINUTES getTokenCreationTime tx
      walletAddress p h
  rw [hz] at hprice
  refine ⟨hprice, ?_, ?_, ?_, ?_⟩
  · intro hpos
    rw [hprice]
    simp [jsDiv, hpos]
  · intro hzero
    rw [hprice]
    simp [jsDiv, hzero]
  · intro hneg
    rw [hprice]
    simp [jsDiv, not_lt_of_lt hneg, hneg]
  · rw [hprice]
    unfold jsDiv
    rcases lt_trichotomy (0 : ℚ) p.valueUsd with hlt | heq | hgt
    · simp [hlt]
    · simp [← heq]
    · simp [not_lt_of_lt hgt, hgt]

/-- Claim C7, amended witness: the zero-amount buy fixture with USD value
5 is returned with price Infinity. -/
theorem parseSwapTransaction_zero_amount_division_witness :
    parsedZero.priceUsd = jsDiv parsedZero.valueUsd 0 ∧
      parsedZero.priceUsd ≠ JsVal.finite 0 :=
  ⟨(parseSwapTransaction_zero_amount_division 60 (fun _ => none) txZeroAmount
      "w" parsedZero (by decide) (by decide)).1,
   (parseSwapTransaction_zero_amount_division 60 (fun _ => none) txZeroAmount
      "w" parsedZero (by decide) (by decide)).2.2.2.2⟩

/-- Claim C8, counterexample: a buy of a token whose creation-time lookup
returns the known value 0, bought at time 100000 (1666 whole minutes
later, far beyond the default 60-minute maximum), is not filtered: the
source guards the filter with the JavaScript truthiness test
`if (tokenCreationTime)`, which is false at 0, so the classifier returns
the parsed buy where the claim says it returns null. -/
theorem age_filter_zero_creation_fail_open :
    parseSwapTransaction 60 creationAtZero txBuyOld "w" = some parsedOldBuy ∧
      creationAtZero "mintM" = some 0 ∧
      Int.fdiv (txBuyOld.timestamp - 0) 60 > 60 := by
  refine ⟨rfl, rfl, by decide⟩

/-- Claim C8, amended: for a swap that classifies as a buy, a known
nonzero creation time whose age in whole minutes exceeds the configured
maximum makes the classifier return none; an unknown creation time lets
the buy through unfiltered, and so does a creation time of 0, which the
source's truthiness guard treats like an unknown one (fail-open); a sell
classification is never age-filtered. -/
theorem parseSwapTransaction_age_filter (MAX_TOKEN_AGE_MINUTES : ℤ)
    (getTokenCreationTime : String → Option ℤ) (tx : HeliusTransaction)
    (walletAddress : String)
    (hswap : tx.type = "SWAP") (herr : tx.transactionError = false) :
    (∀ t c, findTokenTransfer walletAddress tx.tokenTransfers = some (true, t) →
        getTokenCreationTime t.mint = some c → c ≠ 0 →
        Int.fdiv (tx.timestamp - c) 60 > MAX_TOKEN_AGE_MINUTES →
        parseSwapTransaction MAX_TOKEN_AGE_MINUTES getTokenCreationTime
          tx walletAddress = none)
      ∧ (∀ t, findTokenTransfer walletAddress tx.tokenTransfers = some (true, t) →
        getTokenCreationTime t.mint = none →
        (parseSwapTransaction MAX_TOKEN_AGE_MINUTES getTokenCreationTime
          tx walletAddress).isSome = true)
      ∧ (∀ t, findTokenTransfer walletAddress tx.tokenTransfers = some (true, t) →
        getTokenCreationTime t.mint = some 0 →
        (parseSwapTransaction MAX_TOKEN_AGE_MINUTES getTokenCreationTime
          tx walletAddress).isSome = true)
      ∧ (∀ t, findTokenTransfer walletAddress tx.tokenTransfers = some (false, t) →
        (parseSwapTransaction MAX_TOKEN_AGE_MINUTES getTokenCreationTime
          tx walletAddress).isSome = true) := by
  refine ⟨?_, ?_, ?_, ?_⟩
  · intro t c hfind hct hc0 hage
    simp [parseSwapTransaction, hswap, herr, hfind, hct, hc0, hage]
  · intro t hfind hct
    simp [parseSwapTransaction, hswap, herr, hfind, hct]
  · intro t hfind hct
    simp [parseSwapTransaction, hswap, herr, hfind, hct]
  · intro t hfind
    simp [parseSwapTransaction, hswap, herr, hfind]

/-- Claim C8, witness: a buy of a token created at time 1 and bought at
time 100000 (1666 whole minutes later) is filtered out at the default
60-minute maximum. -/
theorem parseSwapTransaction_age_filter_witness :
    parseSwapTransaction 60 creationAtOne txBuyOld "w" = none :=
  (parseSwapTransaction_age_filter 60 creationAtOne txBuyOld "w" rfl rfl).1
    transferMintM 1 (by decide) rfl (by decide) (by decide)

end WhaleTracker
